import Mathlib

/-!
# SahihBN — verification of the Record Extractor and External Lookup

Shallow embedding of `src/app.py` of the SahihBN repository:

* `parse_ai_response` (Strategy A, structured-response parsing, lines 71–97),
* `search_openfoodfacts` response handling (lines 52–69),
* the module-level database-fallback merge (lines 122–130),
* Strategy B (heuristic OCR parsing), modelled from the spec because the
  second utility's source file is not part of `src/`.

Python strings are modelled as `List Char`; the Python operations used by
the source (`in` substring test, `split(':', 1)`, `strip()`, `split('\n')`)
are re-implemented below with matching semantics.
-/

set_option linter.unnecessarySeqFocus false

namespace SahihBN

/-- The whitespace characters removed by Python `str.strip()`
(ASCII subset; the repository only ever strips ASCII text). -/
def pyIsSpace (c : Char) : Bool :=
  c == ' ' || c == '\t' || c == '\n' || c == '\r' || c == '\x0b' || c == '\x0c'

/-- Drop leading whitespace (Python `lstrip`). -/
def stripLeft : List Char → List Char
  | [] => []
  | c :: t => if pyIsSpace c then stripLeft t else c :: t

/-- Python `str.strip()`: drop leading and trailing whitespace. -/
def pyStrip (s : List Char) : List Char :=
  (stripLeft (stripLeft s).reverse).reverse

/-- Python `line.split(sep, 1)[1]` for a one-character separator:
everything after the first occurrence of `sep`, or `none` when `sep`
does not occur (in which case the Python index access would raise). -/
def afterFirst (sep : Char) : List Char → Option (List Char)
  | [] => none
  | c :: t => if c = sep then some t else afterFirst sep t

/-- `needle` is a prefix of `hay` (character list version). -/
def listStartsWith : List Char → List Char → Bool
  | [], _ => true
  | _ :: _, [] => false
  | a :: as, b :: bs => a == b && listStartsWith as bs

/-- Python `needle in hay`: `needle` occurs as a contiguous substring. -/
def listContains (needle : List Char) : List Char → Bool
  | [] => needle.isEmpty
  | c :: t => listStartsWith needle (c :: t) || listContains needle t

/-- Python `text.split('\n')`: split at every newline, keeping empty
pieces, so the result always has one more piece than there are newlines. -/
def splitLines : List Char → List (List Char)
  | [] => [[]]
  | c :: t =>
    if c = '\n' then [] :: splitLines t
    else
      match splitLines t with
      | [] => [[c]]
      | l :: ls => (c :: l) :: ls

/-- The structured record built by the extractor
(the `data` dictionary of `parse_ai_response`, spec: `ExtractedRecord`). -/
structure ExtractedRecord where
  productName : List Char
  ingredients : List Char
  manufacturer : List Char
  country : List Char
  halalCertified : Bool
deriving Repr, DecidableEq

/-- The initial dictionary of `parse_ai_response` (src/app.py lines 75–81):
all string fields empty, `Halal Certified` false. -/
def initialData : ExtractedRecord :=
  { productName := []
  , ingredients := []
  , manufacturer := []
  , country := []
  , halalCertified := false }

/-- Label tested at src/app.py line 85. -/
def labelProductName : List Char := "Product Name:".toList

/-- Label tested at src/app.py line 87. -/
def labelIngredients : List Char := "Ingredients:".toList

/-- Label tested at src/app.py line 89. -/
def labelManufacturer : List Char := "Manufacturer:".toList

/-- Label tested at src/app.py line 91. -/
def labelCountry : List Char := "Country of Origin:".toList

/-- Label tested at src/app.py line 93. -/
def labelHalal : List Char := "Halal Status:".toList

/-- Token tested at src/app.py line 94 (`"Yes" in line`). -/
def labelYes : List Char := "Yes".toList

/-- The exact set of five labels of Strategy A. -/
def strategyALabels : List (List Char) :=
  [labelProductName, labelIngredients, labelManufacturer, labelCountry, labelHalal]

/-- The value a matched line assigns: everything after the line's first
colon, trimmed (`line.split(":", 1)[1].strip()`). The `[]` default is
never reached on a matched line, because every label contains a colon. -/
def lineValue (line : List Char) : List Char :=
  pyStrip ((afterFirst ':' line).getD [])

/-- One iteration of the `for line in lines` loop of `parse_ai_response`
(src/app.py lines 84–95): an `elif` chain of substring tests. -/
def parseLine (d : ExtractedRecord) (line : List Char) : ExtractedRecord :=
  if listContains labelProductName line then
    { d with productName := lineValue line }
  else if listContains labelIngredients line then
    { d with ingredients := lineValue line }
  else if listContains labelManufacturer line then
    { d with manufacturer := lineValue line }
  else if listContains labelCountry line then
    { d with country := lineValue line }
  else if listContains labelHalal line then
    if listContains labelYes line then { d with halalCertified := true } else d
  else d

/-- `parse_ai_response` (src/app.py lines 71–97): split the text into
lines and fold the `elif` chain over them, starting from the defaults. -/
def parse_ai_response (text : String) : ExtractedRecord :=
  (splitLines text.toList).foldl parseLine initialData

/-- The five-way `elif` priority of `parse_ai_response`, reified: the first
label of the fixed order that occurs as a substring of the line, if any. -/
inductive Label where
  | productName
  | ingredients
  | manufacturer
  | country
  | halalStatus
deriving Repr, DecidableEq

/-- Which branch of the `elif` chain a line takes, if any. -/
def matchedLabel (line : List Char) : Option Label :=
  if listContains labelProductName line then some .productName
  else if listContains labelIngredients line then some .ingredients
  else if listContains labelManufacturer line then some .manufacturer
  else if listContains labelCountry line then some .country
  else if listContains labelHalal line then some .halalStatus
  else none

/-- A line whose `elif` branch is `Halal Status:` and that contains `Yes`
anywhere: exactly the lines at which src/app.py line 95 runs. -/
def halalYesLine (line : List Char) : Bool :=
  decide (matchedLabel line = some .halalStatus) && listContains labelYes line

/-- The last line of `lines` taken by label `L`'s branch, if any. -/
def lastMatch (L : Label) (lines : List (List Char)) : Option (List Char) :=
  (lines.filter fun l => decide (matchedLabel l = some L)).getLast?

/-- How many of the five fields differ between two records. -/
def diffCount (r s : ExtractedRecord) : Nat :=
  (if r.productName = s.productName then 0 else 1) +
  (if r.ingredients = s.ingredients then 0 else 1) +
  (if r.manufacturer = s.manufacturer then 0 else 1) +
  (if r.country = s.country then 0 else 1) +
  (if r.halalCertified = s.halalCertified then 0 else 1)

/-- `parseLine` with the Python index access made explicit: where the
source evaluates `line.split(":", 1)[1]`, a colon-less line would raise
`IndexError`, modelled as `Except.error ()`. -/
def parseLineE (d : ExtractedRecord) (line : List Char) :
    Except Unit ExtractedRecord :=
  if listContains labelProductName line then
    match afterFirst ':' line with
    | none => .error ()
    | some v => .ok { d with productName := pyStrip v }
  else if listContains labelIngredients line then
    match afterFirst ':' line with
    | none => .error ()
    | some v => .ok { d with ingredients := pyStrip v }
  else if listContains labelManufacturer line then
    match afterFirst ':' line with
    | none => .error ()
    | some v => .ok { d with manufacturer := pyStrip v }
  else if listContains labelCountry line then
    match afterFirst ':' line with
    | none => .error ()
    | some v => .ok { d with country := pyStrip v }
  else if listContains labelHalal line then
    .ok (if listContains labelYes line then { d with halalCertified := true } else d)
  else .ok d

/-- `parse_ai_response` with raisable index accesses made explicit. -/
def parse_ai_responseE (text : String) : Except Unit ExtractedRecord :=
  (splitLines text.toList).foldlM parseLineE initialData

/-! ## External Lookup (`search_openfoodfacts`, src/app.py lines 52–69) -/

/-- The triple returned by a successful `search_openfoodfacts` call
(the dictionary of src/app.py lines 62–66). -/
structure LookupResult where
  ingredients : List Char
  country : List Char
  manufacturer : List Char
deriving Repr, DecidableEq

/-- The first element of the response's product list, with the three
optional sub-fields read by `product.get(...)` at lines 63–65. -/
structure OFFProduct where
  ingredients_text : Option (List Char)
  countries : Option (List Char)
  brands : Option (List Char)
deriving Repr, DecidableEq

/-- Outcome of the single HTTP request made by `search_openfoodfacts`:
`failure` covers every exception inside the `try` block (network error,
timeout, non-JSON body, body without a `products` key — all land in the
bare `except` at line 68); `products l` is a parsed body whose
`products` key holds the list `l`. -/
inductive OFFResponse where
  | failure
  | products (l : List OFFProduct)
deriving Repr, DecidableEq

/-- `search_openfoodfacts` (src/app.py lines 52–69) as a function of the
outcome of its one request: on failure return `None`; on an empty product
list return `None` (line 67); otherwise take `products[0]` and read its
sub-fields with the sentinels of lines 63–65. -/
def search_openfoodfacts : OFFResponse → Option LookupResult
  | .failure => none
  | .products [] => none
  | .products (p :: _) =>
    some
      { ingredients := p.ingredients_text.getD "Not found in DB".toList
      , country := p.countries.getD "Unknown".toList
      , manufacturer := p.brands.getD "Unknown".toList }

/-! ## Database fallback merge (module level, src/app.py lines 122–130) -/

/-- The trigger condition of src/app.py line 122. -/
def fallbackInvoked (r : ExtractedRecord) : Bool :=
  decide (r.ingredients = "Not Visible".toList) ||
  decide (r.ingredients.length < 5)

/-- The module-level fallback merge (src/app.py lines 121–130): when the
trigger condition holds, call the lookup with the extracted product name;
on a hit overwrite `Ingredients` unconditionally and `Country` only when
it was empty (line 129's falsiness test); otherwise leave the record
untouched. `search` abstracts `search_openfoodfacts` composed with the
network. -/
def databaseFallback (r : ExtractedRecord)
    (search : List Char → Option LookupResult) : ExtractedRecord :=
  if fallbackInvoked r then
    match search r.productName with
    | none => r
    | some db =>
      { r with
          ingredients := db.ingredients
        , country := if r.country = [] then db.country else r.country }
  else r

/-! ## Strategy B (heuristic free-text parsing of OCR output)

The repository is described as a pair of utilities; only the Strategy A
utility (`app.py`) is present under `src/`, so Strategy B is modelled
from the spec (§4.1, Strategy B). -/

/-- Lower-case a character list (case-insensitive comparisons). -/
def lowerL (l : List Char) : List Char := l.map Char.toLower

/-- Modelled from the spec: the fixed halal keyword set of Strategy B —
"halal", a certification-body acronym (JAKIM), a standard code, a
jurisdiction name. The Strategy B source file is absent from `src/`. -/
def halalKeywords : List (List Char) :=
  ["halal".toList, "jakim".toList, "ms 1500".toList, "malaysia".toList]

/-- Modelled from the spec: case-insensitive whole-text scan for any
halal keyword. -/
def strategyB_halal (text : List Char) : Bool :=
  halalKeywords.any fun k => listContains k (lowerL text)

/-- Modelled from the spec: the first non-empty line longer than 3
characters, taken verbatim, as the product name (one-shot assignment). -/
def strategyB_productName (lines : List (List Char)) : List Char :=
  ((lines.find? fun l => !l.isEmpty && decide (3 < l.length)).getD [])

/-- Modelled from the spec: the case-insensitive ingredient section
markers (English and a localized keyword). -/
def ingredientMarkers : List (List Char) :=
  ["ingredients".toList, "bahan".toList]

/-- A line carrying an ingredient section marker, case-insensitively. -/
def hasIngredientMarker (l : List Char) : Bool :=
  ingredientMarkers.any fun m => listContains m (lowerL l)

/-- Modelled from the spec: append subsequent trimmed lines, space-joined,
until a blank line (empty after trimming) or end of input. -/
def collectSection : List Char → List (List Char) → List Char
  | acc, [] => acc
  | acc, l :: rest =>
    if pyStrip l = [] then acc
    else collectSection (acc ++ ' ' :: pyStrip l) rest

/-- Modelled from the spec: find the first ingredient-marker line, take
the text after its colon as the start of the value, then collect the
section; only the first matching section is captured. -/
def strategyB_ingredients : List (List Char) → List Char
  | [] => []
  | l :: rest =>
    if hasIngredientMarker l then
      collectSection (pyStrip ((afterFirst ':' l).getD [])) rest
    else strategyB_ingredients rest

/-- Modelled from the spec: the case-insensitive manufacturer markers. -/
def manufacturerMarkers : List (List Char) :=
  ["manufactured by".toList, "dikeluarkan oleh".toList]

/-- Modelled from the spec: first manufacturer-marker line; text after
its colon, falling back to the next line's trimmed text when empty. -/
def strategyB_manufacturer : List (List Char) → List Char
  | [] => []
  | l :: rest =>
    if manufacturerMarkers.any (fun m => listContains m (lowerL l)) then
      match pyStrip ((afterFirst ':' l).getD []) with
      | [] => pyStrip (rest.head?.getD [])
      | v => v
    else strategyB_manufacturer rest

/-- Modelled from the spec: Strategy B of the Record Extractor — the
heuristic free-text parser of the OCR-based utility, whose source file
is not under `src/`. The four heuristics run independently over the same
line sequence; the spec gives no country heuristic, so that field keeps
its default. -/
def strategyB (text : String) : ExtractedRecord :=
  { productName := strategyB_productName (splitLines text.toList)
  , ingredients := strategyB_ingredients (splitLines text.toList)
  , manufacturer := strategyB_manufacturer (splitLines text.toList)
  , country := []
  , halalCertified := strategyB_halal text.toList }

/-! ## Helper lemmas -/

/-- `parseLine` in terms of the reified `elif` priority. -/
theorem parseLine_cases (d : ExtractedRecord) (l : List Char) :
    parseLine d l =
      match matchedLabel l with
      | none => d
      | some .productName => { d with productName := lineValue l }
      | some .ingredients => { d with ingredients := lineValue l }
      | some .manufacturer => { d with manufacturer := lineValue l }
      | some .country => { d with country := lineValue l }
      | some .halalStatus =>
        if listContains labelYes l then { d with halalCertified := true } else d := by
  unfold parseLine matchedLabel
  split_ifs <;> rfl

/-- `afterFirst` succeeds exactly when the separator occurs in the list. -/
theorem afterFirst_isSome (sep : Char) (l : List Char) (h : sep ∈ l) :
    ∃ v, afterFirst sep l = some v := by
  induction l with
  | nil => cases h
  | cons c t ih =>
    by_cases hc : c = sep
    · exact ⟨t, by simp [afterFirst, hc]⟩
    · have ht : sep ∈ t := by
        cases h with
        | head => exact absurd rfl hc
        | tail _ h => exact h
      obtain ⟨v, hv⟩ := ih ht
      exact ⟨v, by simp [afterFirst, hc, hv]⟩

/-- Every character of a list-level prefix occurs in the larger list. -/
theorem listStartsWith_mem (n h : List Char) (hs : listStartsWith n h = true) :
    ∀ c ∈ n, c ∈ h := by
  induction n generalizing h with
  | nil => intro c hc; cases hc
  | cons a as ih =>
    cases h with
    | nil => simp [listStartsWith] at hs
    | cons b bs =>
      simp only [listStartsWith, Bool.and_eq_true, beq_iff_eq] at hs
      intro c hc
      cases hc with
      | head => exact hs.1 ▸ List.mem_cons_self _ _
      | tail _ hc => exact List.mem_cons_of_mem _ (ih bs hs.2 c hc)

/-- Every character of a substring occurs in the containing list. -/
theorem listContains_mem (n h : List Char) (hs : listContains n h = true) :
    ∀ c ∈ n, c ∈ h := by
  induction h with
  | nil =>
    intro c hc
    simp [listContains, List.isEmpty_iff] at hs
    simp [hs] at hc
  | cons b bs ih =>
    simp only [listContains, Bool.or_eq_true] at hs
    intro c hc
    cases hs with
    | inl hs => exact listStartsWith_mem n (b :: bs) hs c hc
    | inr hs => exact List.mem_cons_of_mem _ (ih hs c hc)

/-- A line taken by one of the four string-field branches contains a
colon, so the Python `[1]` access cannot raise there. -/
theorem parseLineE_ok (d : ExtractedRecord) (l : List Char) :
    parseLineE d l = .ok (parseLine d l) := by
  have colon : ∀ lab : List Char, ':' ∈ lab → listContains lab l = true →
      ∃ v, afterFirst ':' l = some v := by
    intro lab hmem hc
    exact afterFirst_isSome ':' l (listContains_mem lab l hc ':' hmem)
  unfold parseLineE parseLine
  split_ifs with h1 h2 h3 h4 h5 <;> try rfl
  · obtain ⟨v, hv⟩ := colon labelProductName (by decide) h1
    simp [hv, lineValue]
  · obtain ⟨v, hv⟩ := colon labelIngredients (by decide) h2
    simp [hv, lineValue]
  · obtain ⟨v, hv⟩ := colon labelManufacturer (by decide) h3
    simp [hv, lineValue]
  · obtain ⟨v, hv⟩ := colon labelCountry (by decide) h4
    simp [hv, lineValue]

/-- A fold of all-`ok` steps over `Except` never errors. -/
theorem foldlM_ok {σ α : Type} (f : σ → α → Except Unit σ) (g : σ → α → σ)
    (hfg : ∀ d a, f d a = .ok (g d a)) :
    ∀ (ls : List α) (d : σ), List.foldlM f d ls = .ok (List.foldl g d ls) := by
  intro ls
  induction ls with
  | nil => intro d; rfl
  | cons a as ih =>
    intro d
    simp only [List.foldlM, List.foldl, hfg]
    exact ih (g d a)

/-- The `Halal Certified` flag after one line: unchanged unless the line
is a halal-yes line, in which case it becomes true. -/
theorem parseLine_halal (d : ExtractedRecord) (l : List Char) :
    (parseLine d l).halalCertified = (d.halalCertified || halalYesLine l) := by
  rw [parseLine_cases]
  unfold halalYesLine
  cases hm : matchedLabel l with
  | none => simp [hm]
  | some L =>
    cases L <;> simp [hm] <;> split_ifs with hy <;> simp [hy]

/-- The `Halal Certified` flag after the whole fold. -/
theorem foldl_halal (ls : List (List Char)) :
    ∀ d : ExtractedRecord,
      (ls.foldl parseLine d).halalCertified =
        (d.halalCertified || ls.any halalYesLine) := by
  induction ls with
  | nil => intro d; simp
  | cons l t ih =>
    intro d
    simp only [List.foldl, List.any_cons, ih, parseLine_halal, Bool.or_assoc]

/-- Generic last-match-wins lemma: any field projection that `parseLine`
sets to `lineValue` exactly on its own label's branch and keeps otherwise
ends up holding the value of the last line of its branch. -/
theorem foldl_lastMatch (get : ExtractedRecord → List Char) (L : Label)
    (hset : ∀ d l, matchedLabel l = some L → get (parseLine d l) = lineValue l)
    (hkeep : ∀ d l, matchedLabel l ≠ some L → get (parseLine d l) = get d)
    (lines : List (List Char)) (d : ExtractedRecord) :
    get (lines.foldl parseLine d) =
      ((lastMatch L lines).map lineValue).getD (get d) := by
  induction lines using List.reverseRecOn with
  | nil => simp [lastMatch]
  | append_singleton xs x ih =>
    rw [List.foldl_append]
    simp only [List.foldl]
    unfold lastMatch
    rw [List.filter_append]
    by_cases hx : matchedLabel x = some L
    · rw [hset _ _ hx]
      simp [List.filter, hx, List.getLast?_concat]
    · rw [hkeep _ _ hx]
      rw [show List.filter (fun l => decide (matchedLabel l = some L)) [x] = []
            by simp [hx]]
      rw [List.append_nil]
      simpa [lastMatch] using ih

/-- `productName` is set exactly on the `Product Name:` branch. -/
theorem productName_set (d : ExtractedRecord) (l : List Char)
    (h : matchedLabel l = some .productName) :
    (parseLine d l).productName = lineValue l := by
  rw [parseLine_cases, h]

/-- `productName` is untouched off the `Product Name:` branch. -/
theorem productName_keep (d : ExtractedRecord) (l : List Char)
    (h : matchedLabel l ≠ some .productName) :
    (parseLine d l).productName = d.productName := by
  rw [parseLine_cases]
  cases hm : matchedLabel l with
  | none => rfl
  | some L => cases L <;> simp_all <;> split <;> rfl

/-- `ingredients` is set exactly on the `Ingredients:` branch. -/
theorem ingredients_set (d : ExtractedRecord) (l : List Char)
    (h : matchedLabel l = some .ingredients) :
    (parseLine d l).ingredients = lineValue l := by
  rw [parseLine_cases, h]

/-- `ingredients` is untouched off the `Ingredients:` branch. -/
theorem ingredients_keep (d : ExtractedRecord) (l : List Char)
    (h : matchedLabel l ≠ some .ingredients) :
    (parseLine d l).ingredients = d.ingredients := by
  rw [parseLine_cases]
  cases hm : matchedLabel l with
  | none => rfl
  | some L => cases L <;> simp_all <;> split <;> rfl

/-- `manufacturer` is set exactly on the `Manufacturer:` branch. -/
theorem manufacturer_set (d : ExtractedRecord) (l : List Char)
    (h : matchedLabel l = some .manufacturer) :
    (parseLine d l).manufacturer = lineValue l := by
  rw [parseLine_cases, h]

/-- `manufacturer` is untouched off the `Manufacturer:` branch. -/
theorem manufacturer_keep (d : ExtractedRecord) (l : List Char)
    (h : matchedLabel l ≠ some .manufacturer) :
    (parseLine d l).manufacturer = d.manufacturer := by
  rw [parseLine_cases]
  cases hm : matchedLabel l with
  | none => rfl
  | some L => cases L <;> simp_all <;> split <;> rfl

/-- `country` is set exactly on the `Country of Origin:` branch. -/
theorem country_set (d : ExtractedRecord) (l : List Char)
    (h : matchedLabel l = some .country) :
    (parseLine d l).country = lineValue l := by
  rw [parseLine_cases, h]

/-- `country` is untouched off the `Country of Origin:` branch. -/
theorem country_keep (d : ExtractedRecord) (l : List Char)
    (h : matchedLabel l ≠ some .country) :
    (parseLine d l).country = d.country := by
  rw [parseLine_cases]
  cases hm : matchedLabel l with
  | none => rfl
  | some L => cases L <;> simp_all <;> split <;> rfl

/-- A line taking no branch leaves the record unchanged. -/
theorem parseLine_unmatched (d : ExtractedRecord) (l : List Char)
    (h : matchedLabel l = none) : parseLine d l = d := by
  rw [parseLine_cases, h]

/-- A list of lines none of which takes a branch leaves any record fixed. -/
theorem foldl_unmatched (ls : List (List Char))
    (hall : ∀ l ∈ ls, matchedLabel l = none) :
    ∀ d : ExtractedRecord, ls.foldl parseLine d = d := by
  induction ls with
  | nil => intro d; rfl
  | cons a t ih =>
    intro d
    simp only [List.foldl]
    rw [parseLine_unmatched d a (hall a (List.mem_cons_self a t))]
    exact ih (fun l hl => hall l (List.mem_cons_of_mem a hl)) d

/-! ## Claims -/

/-- C1, counterexample: the claim says a field is set by a line iff the
line *begins with* the label. On input `"x Product Name: A"` the single
line does not begin with `Product Name:`, yet `parse_ai_response` sets
the product name (the source tests `"Product Name:" in line`, a
substring test, not a prefix test). -/
theorem C1_counterexample :
    (parse_ai_response "x Product Name: A").productName = "A".toList ∧
    listStartsWith labelProductName "x Product Name: A".toList = false ∧
    splitLines "x Product Name: A".toList = ["x Product Name: A".toList] := by
  decide

/-- C1, amended: a string field is set by a line iff that line's matched
label — the first of Product Name, Ingredients, Manufacturer, Country of
Origin, Halal Status occurring as a substring *anywhere* in the line —
is that field's label; the value assigned is everything after the line's
first colon, trimmed (`lineValue`). -/
theorem C1_amended_substring_match (d : ExtractedRecord) (line : List Char) :
    ((parseLine d line).productName =
      if matchedLabel line = some .productName then lineValue line
      else d.productName) ∧
    ((parseLine d line).ingredients =
      if matchedLabel line = some .ingredients then lineValue line
      else d.ingredients) ∧
    ((parseLine d line).manufacturer =
      if matchedLabel line = some .manufacturer then lineValue line
      else d.manufacturer) ∧
    ((parseLine d line).country =
      if matchedLabel line = some .country then lineValue line
      else d.country) := by
  refine ⟨?_, ?_, ?_, ?_⟩
  · by_cases h : matchedLabel line = some .productName
    · rw [if_pos h]; exact productName_set d line h
    · rw [if_neg h]; exact productName_keep d line h
  · by_cases h : matchedLabel line = some .ingredients
    · rw [if_pos h]; exact ingredients_set d line h
    · rw [if_neg h]; exact ingredients_keep d line h
  · by_cases h : matchedLabel line = some .manufacturer
    · rw [if_pos h]; exact manufacturer_set d line h
    · rw [if_neg h]; exact manufacturer_keep d line h
  · by_cases h : matchedLabel line = some .country
    · rw [if_pos h]; exact country_set d line h
    · rw [if_neg h]; exact country_keep d line h

/-- C2, counterexample: the claim says `halalCertified` is true iff some
`Halal Status:` line's value *after the colon* contains `Yes`. On input
`"Yes Halal Status: No"` (a single line) the value after the colon is
`" No"`, which does not contain `Yes`, yet the flag comes out true: the
source tests `"Yes" in line` over the whole line. -/
theorem C2_counterexample :
    (parse_ai_response "Yes Halal Status: No").halalCertified = true ∧
    listContains labelYes
      ((afterFirst ':' "Yes Halal Status: No".toList).getD []) = false ∧
    splitLines "Yes Halal Status: No".toList =
      ["Yes Halal Status: No".toList] := by
  decide

/-- C2, amended: `halalCertified` is true iff some line reaches the
`Halal Status:` branch (contains that label and none of the four
higher-priority labels) and contains the token `Yes` *anywhere in the
line*, not necessarily after the colon. A sole `Halal Status: No` line
still yields false, and a `Halal Status: Yes` line still yields true. -/
theorem C2_amended_yes_in_line (text : String) :
    (parse_ai_response text).halalCertified = true ↔
      ∃ l ∈ splitLines text.toList, halalYesLine l = true := by
  unfold parse_ai_response
  rw [foldl_halal]
  simp [initialData, List.any_eq_true]

/-- C3: for every input, each string field ends at the value of the last
line taken by its label's branch (sequential overwrite), and a label
whose branch no line takes leaves its field at the default. -/
theorem C3_last_match_wins (text : String) :
    ((parse_ai_response text).productName =
      ((lastMatch .productName (splitLines text.toList)).map lineValue).getD
        initialData.productName) ∧
    ((parse_ai_response text).ingredients =
      ((lastMatch .ingredients (splitLines text.toList)).map lineValue).getD
        initialData.ingredients) ∧
    ((parse_ai_response text).manufacturer =
      ((lastMatch .manufacturer (splitLines text.toList)).map lineValue).getD
        initialData.manufacturer) ∧
    ((parse_ai_response text).country =
      ((lastMatch .country (splitLines text.toList)).map lineValue).getD
        initialData.country) := by
  refine ⟨?_, ?_, ?_, ?_⟩
  · exact foldl_lastMatch ExtractedRecord.productName .productName
      productName_set productName_keep (splitLines text.toList) initialData
  · exact foldl_lastMatch ExtractedRecord.ingredients .ingredients
      ingredients_set ingredients_keep (splitLines text.toList) initialData
  · exact foldl_lastMatch ExtractedRecord.manufacturer .manufacturer
      manufacturer_set manufacturer_keep (splitLines text.toList) initialData
  · exact foldl_lastMatch ExtractedRecord.country .country
      country_set country_keep (splitLines text.toList) initialData

/-- C4: when no line of the input contains any of the five labels as a
substring — in particular on the empty string — `parse_ai_response`
returns the all-default record. -/
theorem C4_all_default (text : String)
    (h : ∀ line ∈ splitLines text.toList,
      ∀ lab ∈ strategyALabels, listContains lab line = false) :
    parse_ai_response text = initialData := by
  unfold parse_ai_response
  apply foldl_unmatched
  intro l hl
  have h1 := h l hl labelProductName (by simp [strategyALabels])
  have h2 := h l hl labelIngredients (by simp [strategyALabels])
  have h3 := h l hl labelManufacturer (by simp [strategyALabels])
  have h4 := h l hl labelCountry (by simp [strategyALabels])
  have h5 := h l hl labelHalal (by simp [strategyALabels])
  unfold matchedLabel
  simp [h1, h2, h3, h4, h5]

/-- C4 witness: the empty input evaluates to the all-default record. -/
theorem C4_all_default_witness : parse_ai_response "" = initialData :=
  C4_all_default "" (by decide)

/-- C5: `parse_ai_response` is total — the explicit-error variant, where a
colon-less line in a string-field branch would raise the Python
`IndexError`, never errors, because every matched label itself contains a
colon; and a line matching no label is skipped, leaving every field
unchanged. -/
theorem C5_total_never_raises :
    (∀ text : String,
      parse_ai_responseE text = .ok (parse_ai_response text)) ∧
    (∀ (d : ExtractedRecord) (line : List Char),
      matchedLabel line = none → parseLine d line = d) := by
  constructor
  · intro text
    exact foldlM_ok parseLineE parseLine parseLineE_ok
      (splitLines text.toList) initialData
  · exact parseLine_unmatched

/-- C5 witness: concrete instances of both conjuncts. -/
theorem C5_total_never_raises_witness :
    parse_ai_responseE "Halal Status: Yes\nno colon here" =
      .ok (parse_ai_response "Halal Status: Yes\nno colon here") ∧
    parseLine initialData "no label at all".toList = initialData :=
  ⟨C5_total_never_raises.1 "Halal Status: Yes\nno colon here",
   C5_total_never_raises.2 initialData "no label at all".toList (by decide)⟩

/-- C6: the fallback is invoked iff the extracted ingredients equal the
sentinel `Not Visible` or are shorter than 5 characters; when not
invoked the result does not depend on the lookup at all; on a hit the
ingredients are overwritten unconditionally and the country only when it
was empty; on a miss the record — ingredients included — is unchanged. -/
theorem C6_fallback_merge (r : ExtractedRecord)
    (search : List Char → Option LookupResult) :
    (fallbackInvoked r = true ↔
      (r.ingredients = "Not Visible".toList ∨ r.ingredients.length < 5)) ∧
    (fallbackInvoked r = false →
      ∀ f : List Char → Option LookupResult, databaseFallback r f = r) ∧
    (∀ db : LookupResult, fallbackInvoked r = true →
      search r.productName = some db →
      (databaseFallback r search).ingredients = db.ingredients ∧
      (databaseFallback r search).country =
        (if r.country = [] then db.country else r.country) ∧
      (databaseFallback r search).productName = r.productName ∧
      (databaseFallback r search).manufacturer = r.manufacturer ∧
      (databaseFallback r search).halalCertified = r.halalCertified) ∧
    (fallbackInvoked r = true → search r.productName = none →
      databaseFallback r search = r) := by
  refine ⟨?_, ?_, ?_, ?_⟩
  · simp [fallbackInvoked]
  · intro h f
    unfold databaseFallback
    simp [h]
  · intro db hinv hsome
    simp [databaseFallback, hinv, hsome]
  · intro hinv hnone
    simp [databaseFallback, hinv, hnone]

/-- C6 witness: a sentinel-triggered record merged against a hit and
against a miss, and a long-ingredients record left alone. -/
theorem C6_fallback_merge_witness :
    (databaseFallback
      { productName := "Milo".toList, ingredients := "Not Visible".toList
      , manufacturer := [], country := [], halalCertified := false }
      (fun _ => some { ingredients := "Water, Sugar".toList
                     , country := "France".toList
                     , manufacturer := "Acme".toList })).ingredients =
      "Water, Sugar".toList ∧
    databaseFallback
      { productName := "Milo".toList, ingredients := "Not Visible".toList
      , manufacturer := [], country := [], halalCertified := false }
      (fun _ => none) =
      { productName := "Milo".toList, ingredients := "Not Visible".toList
      , manufacturer := [], country := [], halalCertified := false } ∧
    databaseFallback
      { productName := "Milo".toList, ingredients := "Water, Sugar".toList
      , manufacturer := [], country := [], halalCertified := false }
      (fun _ => none) =
      { productName := "Milo".toList, ingredients := "Water, Sugar".toList
      , manufacturer := [], country := [], halalCertified := false } :=
  ⟨((C6_fallback_merge _ _).2.2.1 _ (by decide) rfl).1,
   (C6_fallback_merge _ _).2.2.2 (by decide) rfl,
   (C6_fallback_merge
      { productName := "Milo".toList, ingredients := "Water, Sugar".toList
      , manufacturer := [], country := [], halalCertified := false }
      (fun _ => none)).2.1 (by decide) (fun _ => none)⟩

/-- C7: `search_openfoodfacts` returns the not-found result on any failed
request or on an empty product list, and on a non-empty product list it
takes the first product unconditionally, substituting the sentinels
`Not found in DB` / `Unknown` for missing sub-fields. -/
theorem C7_lookup_first_match :
    search_openfoodfacts .failure = none ∧
    search_openfoodfacts (.products []) = none ∧
    ∀ (p : OFFProduct) (rest : List OFFProduct),
      search_openfoodfacts (.products (p :: rest)) =
        some
          { ingredients := p.ingredients_text.getD "Not found in DB".toList
          , country := p.countries.getD "Unknown".toList
          , manufacturer := p.brands.getD "Unknown".toList } :=
  ⟨rfl, rfl, fun _ _ => rfl⟩

/-- C8: the extractor is deterministic — equal inputs give equal records.
In this embedding `parse_ai_response` is a pure function of its argument,
matching the source, which reads no state besides its parameter and
mutates only its own fresh dictionary. -/
theorem C8_deterministic (t₁ t₂ : String) (h : t₁ = t₂) :
    parse_ai_response t₁ = parse_ai_response t₂ := by
  rw [h]

/-- C8 witness: two invocations on the same concrete input agree. -/
theorem C8_deterministic_witness :
    parse_ai_response "Product Name: Milo\nHalal Status: Yes" =
      parse_ai_response "Product Name: Milo\nHalal Status: Yes" :=
  C8_deterministic _ _ rfl

/-- C9: on the spec's Strategy B scenario the product name is the first
non-empty line longer than 3 characters, the ingredients value contains
`Sugar, Cocoa`, and the whole-text case-insensitive keyword scan on
`jakim` sets the certification flag. -/
theorem C9_strategyB_scenario :
    (strategyB "Choco Bar\nIngredients: Sugar, Cocoa\nJAKIM Certified\n").productName =
      "Choco Bar".toList ∧
    listContains "Sugar, Cocoa".toList
      (strategyB "Choco Bar\nIngredients: Sugar, Cocoa\nJAKIM Certified\n").ingredients
      = true ∧
    (strategyB "Choco Bar\nIngredients: Sugar, Cocoa\nJAKIM Certified\n").halalCertified
      = true := by
  decide

/-- C10: every line changes at most one field, and when several labels
occur in one line only the first of the fixed order takes effect: the
chosen field gets the after-colon value and every other field is
untouched. -/
theorem C10_priority_order (d : ExtractedRecord) (line : List Char) :
    diffCount d (parseLine d line) ≤ 1 ∧
    (listContains labelProductName line = true →
      (parseLine d line).productName = lineValue line ∧
      (parseLine d line).ingredients = d.ingredients ∧
      (parseLine d line).manufacturer = d.manufacturer ∧
      (parseLine d line).country = d.country ∧
      (parseLine d line).halalCertified = d.halalCertified) ∧
    (listContains labelProductName line = false →
      listContains labelIngredients line = true →
      (parseLine d line).ingredients = lineValue line ∧
      (parseLine d line).productName = d.productName ∧
      (parseLine d line).manufacturer = d.manufacturer ∧
      (parseLine d line).country = d.country ∧
      (parseLine d line).halalCertified = d.halalCertified) ∧
    (listContains labelProductName line = false →
      listContains labelIngredients line = false →
      listContains labelManufacturer line = true →
      (parseLine d line).manufacturer = lineValue line ∧
      (parseLine d line).productName = d.productName ∧
      (parseLine d line).ingredients = d.ingredients ∧
      (parseLine d line).country = d.country ∧
      (parseLine d line).halalCertified = d.halalCertified) ∧
    (listContains labelProductName line = false →
      listContains labelIngredients line = false →
      listContains labelManufacturer line = false →
      listContains labelCountry line = true →
      (parseLine d line).country = lineValue line ∧
      (parseLine d line).productName = d.productName ∧
      (parseLine d line).ingredients = d.ingredients ∧
      (parseLine d line).manufacturer = d.manufacturer ∧
      (parseLine d line).halalCertified = d.halalCertified) ∧
    (listContains labelProductName line = false →
      listContains labelIngredients line = false →
      listContains labelManufacturer line = false →
      listContains labelCountry line = false →
      listContains labelHalal line = true →
      (parseLine d line).productName = d.productName ∧
      (parseLine d line).ingredients = d.ingredients ∧
      (parseLine d line).manufacturer = d.manufacturer ∧
      (parseLine d line).country = d.country) := by
  refine ⟨?_, ?_, ?_, ?_, ?_, ?_⟩
  · rw [parseLine_cases]
    cases hm : matchedLabel line with
    | none => simp [diffCount]
    | some L =>
      cases L <;> simp only [diffCount] <;> split_ifs <;> simp_all
  · intro h1
    unfold parseLine
    simp [h1]
  · intro h1 h2
    unfold parseLine
    simp [h1, h2]
  · intro h1 h2 h3
    unfold parseLine
    simp [h1, h2, h3]
  · intro h1 h2 h3 h4
    unfold parseLine
    simp [h1, h2, h3, h4]
  · intro h1 h2 h3 h4 h5
    unfold parseLine
    simp only [h1, h2, h3, h4, h5, Bool.false_eq_true, if_false, if_true]
    split_ifs <;> exact ⟨rfl, rfl, rfl, rfl⟩

/-- C10 witness: a line containing both `Product Name:` and
`Ingredients:` changes only the product name. -/
theorem C10_priority_order_witness :
    diffCount initialData
      (parseLine initialData "Product Name: A Ingredients: B".toList) ≤ 1 ∧
    (parseLine initialData "Product Name: A Ingredients: B".toList).ingredients =
      initialData.ingredients :=
  ⟨(C10_priority_order initialData "Product Name: A Ingredients: B".toList).1,
   ((C10_priority_order initialData "Product Name: A Ingredients: B".toList).2.1
     (by decide)).2.1⟩

end SahihBN
